import Mathlib

/- Shallow embedding of the star-registry private blockchain
   (src/src/blockchain.js, class Blockchain), together with the parts of the
   Block class (required from ./block.js by blockchain.js but not among the
   sources) that are modelled from the specification.

   Conventions of the embedding:
   * JS numbers holding heights are modelled as Int (the chain height starts
     at -1); timestamps in seconds are Nat values passed explicitly in place
     of reading the wall clock (the code derives its second-resolution time
     from new Date().getTime().toString().slice(0, -3)).
   * The SHA256 primitive and the bitcoinjs-message verify primitive are
     black boxes of the specification (section 6); they are passed as
     function parameters hashFn and verify.
   * JSON.stringify of a block is modelled by the deterministic serializer
     serializeBlock; parseInt is modelled by parseIntOpt, where the value
     none models NaN.
   * A promise that rejects is Outcome.rejected carrying the message of the
     rejection value; a promise that never settles (an exception thrown
     inside an async promise executor after an await, with no enclosing
     try/catch, leaves the outer promise forever pending) is Outcome.stuck
     carrying the underlying JS error.
-/

namespace PrivateBlockchain

/-- A JS runtime error raised while a promise executor runs. -/
inductive JsError where
  | referenceError (name : String)
deriving DecidableEq

/-- The JS message text of a runtime error. -/
def JsError.message : JsError → String
  | .referenceError n => n ++ " is not defined"

/-- Outcome of an async operation: resolved, rejected with a message, or a
promise that never settles because its executor threw after an await. -/
inductive Outcome (α : Type) where
  | resolved (value : α)
  | rejected (msg : String)
  | stuck (e : JsError)
deriving DecidableEq

/-- True exactly on a resolved outcome. -/
def Outcome.isResolved {α : Type} : Outcome α → Bool
  | .resolved _ => true
  | _ => false

/-- Structured payloads stored in a block body: the genesis payload
(data: "Genesis Block") or a star submission (star, owner). -/
inductive BData where
  | genesis (data : String)
  | star (star : String) (owner : String)
deriving DecidableEq

/-- The owner field of a decoded payload; the genesis payload has none
(reading it in JS yields undefined). -/
def BData.owner : BData → Option String
  | .genesis _ => none
  | .star _ o => some o

/-- Split a character list at every occurrence of the separator character;
the recursion mirrors the JS String.split semantics for one-character
separators (an empty input yields one empty field). -/
def splitCharAux (sep : Char) : List Char → List Char → List (List Char)
  | [], acc => [acc.reverse]
  | c :: rest, acc =>
    if c = sep then acc.reverse :: splitCharAux sep rest []
    else splitCharAux sep rest (c :: acc)

/-- Model of the JS String.split with a one-character separator, the only
shape the code uses (split on a colon, and the dot separator of the
payload codec). -/
def splitChar (sep : Char) (s : String) : List String :=
  (splitCharAux sep s.data []).map List.asString

/-- Longest digit prefix of a character list. -/
def leadingDigits (cs : List Char) : List Char :=
  cs.takeWhile (fun c => c.isDigit)

/-- Decimal value of a nonempty digit list; none when the list is empty. -/
def digitsVal (cs : List Char) : Option Nat :=
  if cs.isEmpty then none
  else some (cs.foldl (fun acc c => acc * 10 + (c.toNat - 48)) 0)

/-- Model of the JS parseInt coercion used on the message timestamp: skip
leading spaces, accept an optional sign, read the longest digit prefix;
none models NaN. -/
def parseIntOpt (s : String) : Option Int :=
  let cs := s.data.dropWhile (fun c => c = ' ')
  match cs with
  | [] => none
  | c :: rest =>
    if c = '-' then (digitsVal (leadingDigits rest)).map (fun n => -(n : Int))
    else if c = '+' then (digitsVal (leadingDigits rest)).map (fun n => (n : Int))
    else (digitsVal (leadingDigits cs)).map (fun n => (n : Int))

/-- Modelled from the spec: the reversible opaque text encoding of one string
component inside a block body (section 6 payload encode; src/block.js, which
hex-encodes JSON, is not among the sources). Each character becomes its
decimal code point, separated by dots. -/
def encStr (s : String) : String :=
  String.intercalate "." (s.data.map (fun c => toString c.toNat))

/-- Modelled from the spec: inverse of encStr; fails cleanly on input that is
not validly encoded (section 6 payload decode). -/
def decStr (s : String) : Option String :=
  if s = "" then some ""
  else ((splitChar (Char.ofNat 46) s).mapM (fun piece => (digitsVal piece.data).map Char.ofNat)).map List.asString

/-- Modelled from the spec: encoding of a structured payload into the opaque
body string of a block (section 6, payload shapes data and star/owner). -/
def encodePayload : BData → String
  | .genesis d => "g:" ++ encStr d
  | .star s o => "s:" ++ encStr s ++ ":" ++ encStr o

/-- Modelled from the spec: decoding of a block body back into its structured
form; none models a DecodeError (section 4.1 decodePayload). -/
def decodePayload (body : String) : Option BData :=
  match splitChar (Char.ofNat 58) body with
  | ["g", d] => (decStr d).map BData.genesis
  | ["s", s, o] =>
    match decStr s, decStr o with
    | some s1, some o1 => some (BData.star s1 o1)
    | _, _ => none
  | _ => none

/-- A block record, fields in the construction order of the original class:
hash, height, body (encoded payload), time (seconds string) and
previousBlockHash. The value none models the JS null sentinel. -/
structure Block where
  hash : Option String
  height : Int
  body : String
  time : String
  previousBlockHash : Option String
deriving DecidableEq

/-- Modelled from the spec: the Block constructor (src/block.js is not among
the sources): hash and previousBlockHash start as the null sentinel, height
and time start at zero, and the body holds the encoded payload. -/
def Block.new (data : BData) : Block :=
  { hash := none, height := 0, body := encodePayload data, time := "0", previousBlockHash := none }

/-- Rendering of an optional string the way JSON.stringify renders a possibly
null field. -/
def optStr : Option String → String
  | none => "null"
  | some s => s

/-- Deterministic stand-in for JSON.stringify of a block: all five fields in
construction order. Only determinism and the treatment of the hash field
matter to the code; the concrete format is irrelevant to the black-box hash
primitive. -/
def serializeBlock (b : Block) : String :=
  String.intercalate "|" [optStr b.hash, toString b.height, b.body, b.time, optStr b.previousBlockHash]

/-- Modelled from the spec: Block.validate (src/block.js is not among the
sources): recompute the hash over the current field values with the stored
hash excluded (treated as null) and return true iff it equals the stored
hash (section 4.1). It resolves a boolean and never rejects. -/
def Block.validate (hashFn : String → String) (b : Block) : Bool :=
  b.hash == some (hashFn (serializeBlock { b with hash := none }))

/-- Modelled from the spec: Block.getBData (src/block.js is not among the
sources): decode the stored body back into its structured form; fails with a
DecodeError when the stored bytes are not validly encoded (section 4.1). -/
def Block.getBData (b : Block) : Except String BData :=
  match decodePayload b.body with
  | some d => Except.ok d
  | none => Except.error "DecodeError"

/-- The ledger state: the chain array and the height field of the Blockchain
class. The constructor state is chain = [] and height = -1. -/
structure Blockchain where
  chain : List Block
  height : Int
deriving DecidableEq

/-- The state built by the Blockchain constructor body before
initializeChain runs. -/
def blockchainNew : Blockchain :=
  { chain := [], height := -1 }

/-- getChainHeight resolves with the height field. -/
def Blockchain.getChainHeight (self : Blockchain) : Int :=
  self.height

/-- Outcome of validateChain: either the promise resolves with the error log,
or the executor threw after an await and the promise never settles. -/
inductive VcOutcome where
  | resolved (errors : List String)
  | stuck (e : JsError)
deriving DecidableEq

/-- validateChain (src/src/blockchain.js lines 253-282). The first loop
collects the per-block validate() promises and Promise.all yields their
boolean results. The forEach over the results builds an error entry reading
the template literal with block.hash, but block is the const loop variable
of the already finished first loop and is out of scope there, so the first
falsy outcome raises a ReferenceError. The second loop, for every i > 0,
reads block.previousBlockHash in its guard with block again out of scope, so
its first iteration (which exists iff the chain has at least two blocks)
raises as well. Either ReferenceError is thrown inside the async executor
after an await and there is no try/catch, so the returned promise never
settles. When the promise does resolve, the error log is necessarily
empty. -/
def Blockchain.validateChain (hashFn : String → String) (self : Blockchain) : VcOutcome :=
  let results := self.chain.map (fun b => Block.validate hashFn b)
  if results.any (fun outcome => !outcome) then
    VcOutcome.stuck (JsError.referenceError "block")
  else if 2 ≤ self.chain.length then
    VcOutcome.stuck (JsError.referenceError "block")
  else
    VcOutcome.resolved []

/-- Steps 3-5 of _addBlock on the block whose previousBlockHash is already
settled: assign the time string, assign height = chain.length, then assign
the hash of the serialized block (the hash field still holds its previous
value, null for freshly constructed blocks, during this serialization). -/
def sealBlock (hashFn : String → String) (now : Nat) (len : Nat) (block : Block) : Block :=
  let b1 := { block with time := toString now, height := (len : Int) }
  { b1 with hash := some (hashFn (serializeBlock b1)) }

/-- Tail of _addBlock after the pre-append validation and the
previousBlockHash assignment: seal the block, reject without mutating the
state when the sealed block fails self-validation, otherwise push it and
increment the height. -/
def Blockchain.addSealed (hashFn : String → String) (now : Nat) (self : Blockchain) (block : Block) :
    Outcome Block × Blockchain :=
  let sealed := sealBlock hashFn now self.chain.length block
  if Block.validate hashFn sealed then
    (Outcome.resolved sealed, { chain := self.chain ++ [sealed], height := self.height + 1 })
  else
    (Outcome.rejected "Unable to add block because it is invalid", self)

/-- _addBlock (src/src/blockchain.js lines 63-109). The chain is revalidated
first; if that validation promise never settles the awaited _addBlock
promise never settles either and the state is untouched. A resolved
non-empty error log makes the code throw, which the catch handler wraps into
the generic rejection message (the logged error list is not carried on the
rejection). With height above -1 the previousBlockHash is set to the hash of
the last chain entry (an empty chain in that corner would make the code read
the hash property of undefined, caught and wrapped by the same handler).
Then the block is sealed, self-validated and pushed. -/
def Blockchain._addBlock (hashFn : String → String) (now : Nat) (self : Blockchain) (block : Block) :
    Outcome Block × Blockchain :=
  match Blockchain.validateChain hashFn self with
  | VcOutcome.stuck e => (Outcome.stuck e, self)
  | VcOutcome.resolved errors =>
    if errors.length > 0 then
      (Outcome.rejected "An error occurred while adding the block. Details: Unable to add block to defective chain!", self)
    else if self.height > -1 then
      match self.chain.getLast? with
      | some last => Blockchain.addSealed hashFn now self { block with previousBlockHash := last.hash }
      | none => (Outcome.rejected "An error occurred while adding the block. Details: Cannot read property hash of undefined", self)
    else
      Blockchain.addSealed hashFn now self block

/-- initializeChain (src/src/blockchain.js lines 35-40): when the height is
still -1, add a fresh genesis block through _addBlock. -/
def Blockchain.initializeChain (hashFn : String → String) (now : Nat) (self : Blockchain) : Blockchain :=
  if self.height == -1 then
    (Blockchain._addBlock hashFn now self (Block.new (BData.genesis "Genesis Block"))).2
  else
    self

/-- getBlockByHeight (src/src/blockchain.js lines 208-218): find the first
block whose height field equals the argument; resolves null when absent. -/
def Blockchain.getBlockByHeight (self : Blockchain) (height : Int) : Option Block :=
  self.chain.find? (fun p => p.height == height)

/-- requestMessageOwnershipVerification (src/src/blockchain.js lines
119-125): the colon-delimited challenge message. -/
def Blockchain.requestMessageOwnershipVerification (address : String) (now : Nat) : String :=
  address ++ ":" ++ toString now ++ ":starRegistry"

/-- getStarsByWalletAddress (src/src/blockchain.js lines 226-245): a filter
over the whole chain whose callback pushes the decoded payload when the
truthiness guard blockAddr and blockAddr === address holds; an undefined
owner (genesis payload) and the empty string are both falsy and are skipped,
and a decode failure is logged and skipped. The JS microtask interleaving of
the async callbacks is abstracted to the sequential scan in chain order. -/
def Blockchain.getStarsByWalletAddress (self : Blockchain) (address : String) : List BData :=
  self.chain.foldl (fun stars block =>
    match Block.getBData block with
    | Except.ok data =>
      match BData.owner data with
      | some blockAddr => if blockAddr != "" && blockAddr == address then stars ++ [data] else stars
      | none => stars
    | Except.error _ => stars) []

/-- The five-minute challenge window of submitStar. -/
def timeLimit : Int := 5 * 60

/-- Steps 4-6 of submitStar (src/src/blockchain.js lines 164-180): signature
verification, then the append of a fresh star block; a rejection of the
awaited _addBlock is caught and wrapped, a never-settling _addBlock leaves
submitStar pending as well. -/
def Blockchain.verifyAndAdd (hashFn : String → String) (verify : String → String → String → Bool)
    (now : Nat) (self : Blockchain) (address message signature star : String) :
    Outcome Block × Blockchain :=
  if verify message address signature then
    match Blockchain._addBlock hashFn now self (Block.new (BData.star star address)) with
    | (Outcome.resolved b, st) => (Outcome.resolved b, st)
    | (Outcome.rejected m, st) =>
      (Outcome.rejected ("Unable to register block with star object. Details: " ++ m), st)
    | (Outcome.stuck e, st) => (Outcome.stuck e, st)
  else
    (Outcome.rejected "Message verification failed", self)

/-- submitStar (src/src/blockchain.js lines 146-182). The message is split on
colons and parseInt is applied to the second token (parseInt of a missing
token, i.e. of undefined, is NaN, modelled by none). The expiry guard
compares currentTime - time with the five-minute limit; every comparison
with NaN is false, so an unparseable timestamp falls through to the
signature verification step exactly like a fresh one. -/
def Blockchain.submitStar (hashFn : String → String) (verify : String → String → String → Bool)
    (now : Nat) (self : Blockchain) (address message signature star : String) :
    Outcome Block × Blockchain :=
  let tokens := splitChar (Char.ofNat 58) message
  match (tokens.get? 1).bind parseIntOpt with
  | some t =>
    if (now : Int) - t > timeLimit then
      (Outcome.rejected "Cannot verify message as the time limit is exceeded", self)
    else
      Blockchain.verifyAndAdd hashFn verify now self address message signature star
  | none => Blockchain.verifyAndAdd hashFn verify now self address message signature star

/-- Rendering of the claimed contract of getStarsByOwner in the words of the
specification, for comparison with the source function: scan all blocks
except index 0, decode each payload, and collect those whose decoded owner
equals the address, preserving chain order; decode failures are skipped. -/
def starsByOwnerSpec (self : Blockchain) (address : String) : List BData :=
  (self.chain.drop 1).filterMap (fun block =>
    match Block.getBData block with
    | Except.ok data =>
      match BData.owner data with
      | some a => if a = address then some data else none
      | none => none
    | Except.error _ => none)

/-- Rendering of the amended contract of getStarsByOwner: every block
(index 0 included) is scanned, and a decoded payload is collected exactly
when its owner field is present, non-empty and equal to the address; decode
failures are skipped; chain order is preserved. -/
def starsByOwnerAmended (self : Blockchain) (address : String) : List BData :=
  self.chain.filterMap (fun block =>
    match Block.getBData block with
    | Except.ok data =>
      match BData.owner data with
      | some a => if a != "" && a == address then some data else none
      | none => none
    | Except.error _ => none)

/-- Ledger states reachable from the constructor state by completed
_addBlock calls on freshly constructed blocks, which is how the two call
sites (initializeChain and submitStar) invoke it. -/
inductive Reachable (hashFn : String → String) : Blockchain → Prop where
  | init : Reachable hashFn blockchainNew
  | step (st : Blockchain) (now : Nat) (d : BData)
      (hst : Reachable hashFn st)
      (hres : (Blockchain._addBlock hashFn now st (Block.new d)).1.isResolved = true) :
      Reachable hashFn (Blockchain._addBlock hashFn now st (Block.new d)).2

/-- A concrete stand-in for the black-box hash primitive, used by the
concrete evaluations below. -/
def exHash : String → String := fun s => "h" ++ toString s.length

/-- A signature verifier that accepts everything, for concrete evaluations. -/
def exVerifyTrue : String → String → String → Bool := fun _ _ _ => true

/-- A signature verifier that rejects everything, for concrete evaluations. -/
def exVerifyFalse : String → String → String → Bool := fun _ _ _ => false

/-- The ledger right after construction plus genesis bootstrap. -/
def exSt1 : Blockchain :=
  Blockchain.initializeChain exHash 100 blockchainNew

/-- The ledger after one further successful star append. -/
def exSt2 : Blockchain :=
  (Blockchain._addBlock exHash 200 exSt1 (Block.new (BData.star "alpha" "ownerA"))).2

/-- A sealed-looking genesis block whose stored hash was tampered with, so
its self-validation fails. -/
def exTampered : Block :=
  { hash := some "0000", height := 0, body := encodePayload (BData.genesis "Genesis Block"),
    time := "100", previousBlockHash := none }

/-- A single-block ledger whose block fails self-validation. -/
def exBad : Blockchain :=
  { chain := [exTampered], height := 0 }

/-- The ledger after a further append whose star payload carries an empty
owner string. -/
def exStEmptyOwner : Blockchain :=
  (Blockchain._addBlock exHash 300 exSt1 (Block.new (BData.star "sirius" ""))).2

/-- An index holding a value lies inside the list. -/
theorem get?_some_lt {α : Type} {l : List α} {n : Nat} {a : α}
    (h : l.get? n = some a) : n < l.length := by
  by_contra hn
  push_neg at hn
  rw [List.get?_eq_none.mpr hn] at h
  cases h

/-- validateChain either resolves with the empty error log or leaves its
promise pending on the out-of-scope variable read; a non-empty error log is
unreachable. -/
theorem validateChain_cases (hashFn : String → String) (self : Blockchain) :
    Blockchain.validateChain hashFn self = VcOutcome.resolved [] ∨
    Blockchain.validateChain hashFn self = VcOutcome.stuck (JsError.referenceError "block") := by
  unfold Blockchain.validateChain
  by_cases h1 : ((self.chain.map (fun b => Block.validate hashFn b)).any (fun outcome => !outcome)) = true
  · rw [if_pos h1]
    exact Or.inr rfl
  · rw [if_neg h1]
    by_cases h2 : 2 ≤ self.chain.length
    · rw [if_pos h2]
      exact Or.inr rfl
    · rw [if_neg h2]
      exact Or.inl rfl

/-- Sealing assigns height = chain length. -/
theorem sealBlock_height (hashFn : String → String) (now len : Nat) (b : Block) :
    (sealBlock hashFn now len b).height = (len : Int) := by
  cases b
  simp [sealBlock]

/-- Sealing leaves previousBlockHash untouched. -/
theorem sealBlock_previousBlockHash (hashFn : String → String) (now len : Nat) (b : Block) :
    (sealBlock hashFn now len b).previousBlockHash = b.previousBlockHash := by
  cases b
  simp [sealBlock]

/-- Sealing leaves the body untouched. -/
theorem sealBlock_body (hashFn : String → String) (now len : Nat) (b : Block) :
    (sealBlock hashFn now len b).body = b.body := by
  cases b
  simp [sealBlock]

/-- A block sealed from a block whose hash still holds the null sentinel
passes self-validation: the recomputation excludes exactly the field the
seal assigned. -/
theorem validate_sealBlock (hashFn : String → String) (now len : Nat) (b : Block)
    (h : b.hash = none) :
    Block.validate hashFn (sealBlock hashFn now len b) = true := by
  cases b
  subst h
  simp [Block.validate, sealBlock]

/-- On a block with the null hash sentinel, the seal-validate-push tail of
_addBlock always resolves and appends the sealed block. -/
theorem addSealed_resolved (hashFn : String → String) (now : Nat) (self : Blockchain) (b : Block)
    (h : b.hash = none) :
    Blockchain.addSealed hashFn now self b =
      (Outcome.resolved (sealBlock hashFn now self.chain.length b),
       { chain := self.chain ++ [sealBlock hashFn now self.chain.length b],
         height := self.height + 1 }) := by
  unfold Blockchain.addSealed
  rw [if_pos (validate_sealBlock hashFn now self.chain.length b h)]

/-- Characterization of a completed _addBlock call on a freshly constructed
block: the resulting state appends exactly one sealed block, whose
previousBlockHash is the hash of the previous last block when the height
was above -1 and the null sentinel otherwise. -/
theorem addBlock_new_resolved (hashFn : String → String) (now : Nat) (self : Blockchain) (d : BData)
    (h : (Blockchain._addBlock hashFn now self (Block.new d)).1.isResolved = true) :
    ∃ prev : Option String,
      ((∃ last, self.height > -1 ∧ self.chain.getLast? = some last ∧ prev = last.hash) ∨
       (self.height ≤ -1 ∧ prev = none)) ∧
      (Blockchain._addBlock hashFn now self (Block.new d)).2 =
        { chain := self.chain ++
            [sealBlock hashFn now self.chain.length { Block.new d with previousBlockHash := prev }],
          height := self.height + 1 } := by
  rcases validateChain_cases hashFn self with hvc | hvc
  · by_cases hh : self.height > -1
    · cases hl : self.chain.getLast? with
      | none =>
        exfalso
        simp only [Blockchain._addBlock, hvc, hl] at h
        simp [hh, Outcome.isResolved] at h
      | some last =>
        refine ⟨last.hash, Or.inl ⟨last, hh, rfl, rfl⟩, ?_⟩
        simp only [Blockchain._addBlock, hvc, hl]
        simp only [List.length_nil, gt_iff_lt, Nat.lt_irrefl, if_false, hh, if_true]
        rw [addSealed_resolved hashFn now self _ (by simp [Block.new])]
    · refine ⟨none, Or.inr ⟨by omega, rfl⟩, ?_⟩
      simp only [Blockchain._addBlock, hvc]
      simp only [List.length_nil, gt_iff_lt, Nat.lt_irrefl, if_false, hh]
      have hb : ({ Block.new d with previousBlockHash := none } : Block) = Block.new d := by
        simp [Block.new]
      rw [hb, addSealed_resolved hashFn now self _ (by simp [Block.new])]
  · exfalso
    simp only [Blockchain._addBlock, hvc] at h
    simp [Outcome.isResolved] at h

/-- The combined structural invariant of every reachable ledger state: the
height field tracks the chain length, every stored block carries its index
as its height, consecutive blocks are hash-linked, and the first block keeps
the null previousBlockHash sentinel. -/
theorem reach_inv (hashFn : String → String) (st : Blockchain) (h : Reachable hashFn st) :
    st.height = (st.chain.length : Int) - 1 ∧
    (∀ i b, st.chain.get? i = some b → b.height = (i : Int)) ∧
    (∀ i b b2, st.chain.get? i = some b → st.chain.get? (i + 1) = some b2 →
      b2.previousBlockHash = b.hash) ∧
    (∀ b, st.chain.get? 0 = some b → b.previousBlockHash = none) := by
  induction h with
  | init =>
    refine ⟨by simp [blockchainNew], ?_, ?_, ?_⟩ <;> intros <;> simp_all [blockchainNew]
  | step st now d hst hres ih =>
    obtain ⟨hh, hhts, hchain, hgen⟩ := ih
    obtain ⟨prev, hprev, heq⟩ := addBlock_new_resolved hashFn now st d hres
    rw [heq]
    have hsh := sealBlock_height hashFn now st.chain.length
      { Block.new d with previousBlockHash := prev }
    have hsp : (sealBlock hashFn now st.chain.length
        { Block.new d with previousBlockHash := prev }).previousBlockHash = prev := by
      rw [sealBlock_previousBlockHash]
    refine ⟨?_, ?_, ?_, ?_⟩
    · simp only [List.length_append, List.length_cons, List.length_nil]
      push_cast
      omega
    · intro i b hb
      by_cases hi : i < st.chain.length
      · rw [List.get?_append hi] at hb
        exact hhts i b hb
      · have hlt := get?_some_lt hb
        simp only [List.length_append, List.length_cons, List.length_nil] at hlt
        have hieq : i = st.chain.length := by omega
        subst hieq
        rw [List.get?_concat_length] at hb
        cases hb
        rw [hsh]
    · intro i b b2 hb hb2
      by_cases hi2 : i + 1 < st.chain.length
      · rw [List.get?_append hi2] at hb2
        rw [List.get?_append (by omega)] at hb
        exact hchain i b b2 hb hb2
      · have hlt := get?_some_lt hb2
        simp only [List.length_append, List.length_cons, List.length_nil] at hlt
        have hieq : i + 1 = st.chain.length := by omega
        have hilt : i < st.chain.length := by omega
        rw [hieq, List.get?_concat_length] at hb2
        cases hb2
        rw [List.get?_append hilt] at hb
        rcases hprev with ⟨last, hhgt, hlast, hpe⟩ | ⟨hle, hpe⟩
        · have hlg : st.chain.get? (st.chain.length - 1) = some last := by
            rw [← List.getLast?_eq_get?]
            exact hlast
          have hig : st.chain.get? i = some last := by
            have : i = st.chain.length - 1 := by omega
            rw [this]
            exact hlg
          rw [hb] at hig
          cases hig
          rw [hsp, hpe]
        · exfalso
          have hlen1 : 1 ≤ st.chain.length := by omega
          have : (1 : Int) ≤ (st.chain.length : Int) := by exact_mod_cast hlen1
          omega
    · intro b hb
      by_cases h0 : 0 < st.chain.length
      · rw [List.get?_append h0] at hb
        exact hgen b hb
      · have hl0 : st.chain.length = 0 := by omega
        have hb2 : (st.chain ++
            [sealBlock hashFn now st.chain.length
              { Block.new d with previousBlockHash := prev }]).get? st.chain.length = some b := by
          rw [hl0]
          rw [hl0] at hb
          exact hb
        rw [List.get?_concat_length] at hb2
        cases hb2
        rcases hprev with ⟨last, hhgt, hlast, hpe⟩ | ⟨hle, hpe⟩
        · exfalso
          have : (st.chain.length : Int) = 0 := by exact_mod_cast hl0
          omega
        · rw [hsp, hpe]

/-- The scan-with-push of getStarsByWalletAddress equals the collect of the
filterMap formulation, for any accumulator already pushed. -/
theorem stars_scan_aux (address : String) (l : List Block) (acc : List BData) :
    l.foldl (fun stars block =>
      match Block.getBData block with
      | Except.ok data =>
        match BData.owner data with
        | some blockAddr => if blockAddr != "" && blockAddr == address then stars ++ [data] else stars
        | none => stars
      | Except.error _ => stars) acc
    = acc ++ l.filterMap (fun block =>
      match Block.getBData block with
      | Except.ok data =>
        match BData.owner data with
        | some a => if a != "" && a == address then some data else none
        | none => none
      | Except.error _ => none) := by
  induction l generalizing acc with
  | nil => simp
  | cons b rest ih =>
    simp only [List.foldl_cons, List.filterMap_cons]
    cases hb : Block.getBData b with
    | error e => simp only [hb, ih]
    | ok data =>
      cases ho : BData.owner data with
      | none => simp only [hb, ho, ih]
      | some a =>
        cases hc : (a != "" && a == address) with
        | false => simp only [hb, ho, hc, Bool.false_eq_true, if_false, ih]
        | true => simp only [hb, ho, hc, if_true, ih, List.append_assoc, List.singleton_append]

/-- C1: the claim says validateChain always resolves with a list of error
entries, empty exactly when every block self-validates and every link
matches. On the code, a fully valid, correctly linked two-block chain makes
the previous-hash loop read the out-of-scope variable block, and a one-block
chain whose block fails self-validation makes the error-entry template read
the same out-of-scope variable: in both cases a ReferenceError is raised
inside the async executor and the promise never settles, instead of
resolving with the empty list respectively with one error entry. -/
theorem c1_validateChain_reference_error :
    Blockchain.validateChain exHash exSt2 = VcOutcome.stuck (JsError.referenceError "block") ∧
    Blockchain.validateChain exHash exBad = VcOutcome.stuck (JsError.referenceError "block") :=
  ⟨by decide, by decide⟩

/-- C2: the claim says a failing pre-append revalidation aborts the append
with a ChainCorruptedError carrying the accumulated error list. On the code,
with a single-block chain whose block fails self-validation, validateChain
raises the ReferenceError before any error entry is built, so the awaited
_addBlock promise never settles; no error carrying an error list is ever
constructed. The ledger state is indeed left unchanged. -/
theorem c2_addBlock_no_chain_corrupted_error :
    Blockchain._addBlock exHash 99 exBad (Block.new (BData.star "s" "o")) =
      (Outcome.stuck (JsError.referenceError "block"), exBad) := by
  decide

/-- C3 counterexample: a message with no colon at all (so no
address/timestamp/tag split and no parseable second field) does not fail:
with an accepting verifier the call resolves and appends the block, because
parseInt yields NaN, every NaN comparison is false, and no format check
exists in the code. -/
theorem c3_counterexample_malformed_message_accepted :
    (Blockchain.submitStar exHash exVerifyTrue 1000 exSt1 "addr" "nomessageformat" "sig" "star1").1.isResolved
      = true := by
  decide

/-- C3 amended: submitStar performs no format check. When the second
colon-separated token of the message does not parse to a number (parseInt
yields NaN, modelled by none), the expiry comparison is false and the call
proceeds directly to the signature-verification step, exactly as for a
well-formed fresh message; no malformed-message rejection exists. -/
theorem c3_amended_malformed_skips_to_verification (hashFn : String → String)
    (verify : String → String → String → Bool) (now : Nat) (self : Blockchain)
    (address message signature star : String)
    (hparse : ((splitChar (Char.ofNat 58) message).get? 1).bind parseIntOpt = none) :
    Blockchain.submitStar hashFn verify now self address message signature star =
      Blockchain.verifyAndAdd hashFn verify now self address message signature star := by
  simp only [Blockchain.submitStar, hparse]

/-- Witness for the amended C3 at a concrete malformed message. -/
theorem c3_amended_witness :
    ((((splitChar (Char.ofNat 58) "starRegistry").get? 1).bind parseIntOpt = none) ∧
     Blockchain.submitStar exHash exVerifyTrue 77 exSt1 "addr2" "starRegistry" "sig2" "star2" =
       Blockchain.verifyAndAdd exHash exVerifyTrue 77 exSt1 "addr2" "starRegistry" "sig2" "star2") :=
  ⟨by decide,
   c3_amended_malformed_skips_to_verification exHash exVerifyTrue 77 exSt1 "addr2" "starRegistry"
     "sig2" "star2" (by decide)⟩

/-- C4: with a well-formed message embedding timestamp t, an elapsed time
now - t strictly above 300 seconds makes submitStar reject with the
time-limit message, with the ledger state unchanged and independently of
the verifier (the rejection happens before signature verification is
attempted); an elapsed time of at most 300 seconds (in particular exactly
300) does not trigger the expiry rejection and the call proceeds to the
signature-verification step. So elapsed = 300 passes and elapsed = 301
fails: the boundary is inclusive. -/
theorem c4_expiry_boundary (hashFn : String → String) (verify : String → String → String → Bool)
    (now : Nat) (self : Blockchain) (address message signature star : String) (t : Int)
    (hparse : ((splitChar (Char.ofNat 58) message).get? 1).bind parseIntOpt = some t) :
    ((now : Int) - t > 300 →
      Blockchain.submitStar hashFn verify now self address message signature star =
        (Outcome.rejected "Cannot verify message as the time limit is exceeded", self)) ∧
    ((now : Int) - t ≤ 300 →
      Blockchain.submitStar hashFn verify now self address message signature star =
        Blockchain.verifyAndAdd hashFn verify now self address message signature star) := by
  constructor
  · intro hgt
    have hcond : (now : Int) - t > timeLimit := by
      simp only [timeLimit]
      omega
    simp only [Blockchain.submitStar, hparse]
    rw [if_pos hcond]
  · intro hle
    have hcond : ¬ ((now : Int) - t > timeLimit) := by
      simp only [timeLimit]
      omega
    simp only [Blockchain.submitStar, hparse]
    rw [if_neg hcond]

/-- Witness for C4 at elapsed = 301 (rejected) and elapsed = 300 (passes on
to verification). -/
theorem c4_expiry_boundary_witness :
    (Blockchain.submitStar exHash exVerifyFalse 1000 exSt1 "a" "a:699:starRegistry" "sig" "st" =
      (Outcome.rejected "Cannot verify message as the time limit is exceeded", exSt1)) ∧
    (Blockchain.submitStar exHash exVerifyFalse 1000 exSt1 "a" "a:700:starRegistry" "sig" "st" =
      Blockchain.verifyAndAdd exHash exVerifyFalse 1000 exSt1 "a" "a:700:starRegistry" "sig" "st") :=
  ⟨(c4_expiry_boundary exHash exVerifyFalse 1000 exSt1 "a" "a:699:starRegistry" "sig" "st" 699
      (by decide)).1 (by decide),
   (c4_expiry_boundary exHash exVerifyFalse 1000 exSt1 "a" "a:700:starRegistry" "sig" "st" 700
      (by decide)).2 (by decide)⟩

/-- C5 counterexample: the claim collects every decoded payload whose owner
equals the queried address. On a ledger holding a sealed star block whose
owner is the empty string, querying that very address returns nothing,
because the JS truthiness guard (blockAddr and blockAddr === address)
treats the empty string as falsy; the rendering of the claimed contract
returns the entry. -/
theorem c5_counterexample_empty_owner :
    Blockchain.getStarsByWalletAddress exStEmptyOwner "" = [] ∧
    starsByOwnerSpec exStEmptyOwner "" = [BData.star "sirius" ""] :=
  ⟨by decide, by decide⟩

/-- C5 amended: getStarsByWalletAddress returns, in chain order, exactly the
decoded payloads (any block scanned, index 0 included) whose owner field is
present, non-empty and equal to the address; decode failures and ownerless
payloads are skipped and do not abort the scan. -/
theorem c5_amended_stars_by_owner (self : Blockchain) (address : String) :
    Blockchain.getStarsByWalletAddress self address = starsByOwnerAmended self address := by
  unfold Blockchain.getStarsByWalletAddress starsByOwnerAmended
  rw [stars_scan_aux]
  simp

/-- C6: after any sequence of completed appends starting from the
constructor state, each block at index i + 1 carries the hash of the block
at index i as its previousBlockHash, and the block at index 0 keeps the
null sentinel. -/
theorem c6_hash_chain_invariant (hashFn : String → String) (st : Blockchain)
    (h : Reachable hashFn st) :
    (∀ i b b2, st.chain.get? i = some b → st.chain.get? (i + 1) = some b2 →
      b2.previousBlockHash = b.hash) ∧
    (∀ b, st.chain.get? 0 = some b → b.previousBlockHash = none) :=
  ⟨(reach_inv hashFn st h).2.2.1, (reach_inv hashFn st h).2.2.2⟩

/-- Witness for C6 on the concrete two-block ledger. -/
theorem c6_hash_chain_invariant_witness :
    (exSt2.chain.get? 1).map Block.previousBlockHash = (exSt2.chain.get? 0).map Block.hash ∧
    (exSt2.chain.get? 0).map Block.previousBlockHash = some none := by
  have hr1 : Reachable exHash exSt1 :=
    Reachable.step blockchainNew 100 (BData.genesis "Genesis Block") Reachable.init (by decide)
  have hr2 : Reachable exHash exSt2 :=
    Reachable.step exSt1 200 (BData.star "alpha" "ownerA") hr1 (by decide)
  have h := c6_hash_chain_invariant exHash exSt2 hr2
  rcases hg0 : exSt2.chain.get? 0 with _ | b0
  · exact absurd hg0 (by decide)
  rcases hg1 : exSt2.chain.get? 1 with _ | b1
  · exact absurd hg1 (by decide)
  constructor
  · simp only [Option.map_some']
    rw [h.1 0 b0 b1 hg0 hg1]
  · simp only [Option.map_some']
    rw [h.2 b0 hg0]

/-- C7: every reachable ledger state satisfies height = length(chain) - 1,
the block stored at index i carries height i, and once the chain is
non-empty (construction, i.e. the genesis bootstrap, has completed) the
externally observable getChainHeight is never -1 again. The read operations
take the state as a value and do not mutate it, so only _addBlock can
change it, and the statement quantifies over all states it can produce. -/
theorem c7_height_invariant (hashFn : String → String) (st : Blockchain)
    (h : Reachable hashFn st) :
    st.height = (st.chain.length : Int) - 1 ∧
    (∀ i b, st.chain.get? i = some b → b.height = (i : Int)) ∧
    (st.chain ≠ [] → 0 ≤ Blockchain.getChainHeight st) := by
  have hi := reach_inv hashFn st h
  refine ⟨hi.1, hi.2.1, ?_⟩
  intro hne
  have hpos : 0 < st.chain.length := List.length_pos.mpr hne
  have hh := hi.1
  unfold Blockchain.getChainHeight
  omega

/-- Witness for C7 on the concrete two-block ledger. -/
theorem c7_height_invariant_witness :
    exSt2.height = (exSt2.chain.length : Int) - 1 ∧
    (exSt2.chain ≠ [] → 0 ≤ Blockchain.getChainHeight exSt2) := by
  have hr1 : Reachable exHash exSt1 :=
    Reachable.step blockchainNew 100 (BData.genesis "Genesis Block") Reachable.init (by decide)
  have hr2 : Reachable exHash exSt2 :=
    Reachable.step exSt1 200 (BData.star "alpha" "ownerA") hr1 (by decide)
  have h := c7_height_invariant exHash exSt2 hr2
  exact ⟨h.1, h.2.2⟩

/-- C8: for any hash primitive and any bootstrap time, the freshly
initialized ledger has getChainHeight 0, its block at height 0 decodes to
the genesis payload, and that block carries the null previousBlockHash
sentinel. -/
theorem c8_genesis_invariant (hashFn : String → String) (now : Nat) :
    Blockchain.getChainHeight (Blockchain.initializeChain hashFn now blockchainNew) = 0 ∧
    (Blockchain.getBlockByHeight (Blockchain.initializeChain hashFn now blockchainNew) 0).map
      Block.getBData = some (Except.ok (BData.genesis "Genesis Block")) ∧
    (Blockchain.getBlockByHeight (Blockchain.initializeChain hashFn now blockchainNew) 0).map
      Block.previousBlockHash = some none := by
  have hinit : Blockchain.initializeChain hashFn now blockchainNew =
      { chain := [sealBlock hashFn now 0 (Block.new (BData.genesis "Genesis Block"))],
        height := 0 } := by
    unfold Blockchain.initializeChain blockchainNew
    simp only [beq_self_eq_true, if_true]
    unfold Blockchain._addBlock
    have hvc : Blockchain.validateChain hashFn { chain := [], height := -1 } =
        VcOutcome.resolved [] := by
      unfold Blockchain.validateChain
      simp
    rw [hvc]
    simp only [List.length_nil, gt_iff_lt, Nat.lt_irrefl, if_false]
    have hgt : ¬ ((-1 : Int) > -1) := by omega
    simp only [hgt, if_false]
    rw [addSealed_resolved hashFn now _ _ (by simp [Block.new])]
    simp
  rw [hinit]
  have hheight := sealBlock_height hashFn now 0 (Block.new (BData.genesis "Genesis Block"))
  refine ⟨rfl, ?_, ?_⟩
  · have hfind : Blockchain.getBlockByHeight
        { chain := [sealBlock hashFn now 0 (Block.new (BData.genesis "Genesis Block"))],
          height := 0 } 0 =
        some (sealBlock hashFn now 0 (Block.new (BData.genesis "Genesis Block"))) := by
      unfold Blockchain.getBlockByHeight
      simp [List.find?, hheight]
    rw [hfind]
    simp only [Option.map_some']
    have hbody := sealBlock_body hashFn now 0 (Block.new (BData.genesis "Genesis Block"))
    unfold Block.getBData
    rw [hbody]
    rfl
  · have hfind : Blockchain.getBlockByHeight
        { chain := [sealBlock hashFn now 0 (Block.new (BData.genesis "Genesis Block"))],
          height := 0 } 0 =
        some (sealBlock hashFn now 0 (Block.new (BData.genesis "Genesis Block"))) := by
      unfold Blockchain.getBlockByHeight
      simp [List.find?, hheight]
    rw [hfind]
    simp only [Option.map_some']
    rw [sealBlock_previousBlockHash]
    rfl

/-- C9: with a well-formed, unexpired message whose signature does not
verify, submitStar rejects with the verification-failure message and the
ledger state is returned unchanged. -/
theorem c9_signature_gate (hashFn : String → String) (verify : String → String → String → Bool)
    (now : Nat) (self : Blockchain) (address message signature star : String) (t : Int)
    (hparse : ((splitChar (Char.ofNat 58) message).get? 1).bind parseIntOpt = some t)
    (hfresh : (now : Int) - t ≤ 300)
    (hver : verify message address signature = false) :
    Blockchain.submitStar hashFn verify now self address message signature star =
      (Outcome.rejected "Message verification failed", self) := by
  have hcond : ¬ ((now : Int) - t > timeLimit) := by
    simp only [timeLimit]
    omega
  simp only [Blockchain.submitStar, hparse]
  rw [if_neg hcond]
  simp only [Blockchain.verifyAndAdd, hver, Bool.false_eq_true, if_false]

/-- Witness for C9 at a concrete fresh message with a rejecting verifier. -/
theorem c9_signature_gate_witness :
    ((((splitChar (Char.ofNat 58) "a:900:starRegistry").get? 1).bind parseIntOpt = some 900) ∧
     (1000 : Int) - 900 ≤ 300 ∧
     exVerifyFalse "a:900:starRegistry" "a" "sg" = false ∧
     Blockchain.submitStar exHash exVerifyFalse 1000 exSt1 "a" "a:900:starRegistry" "sg" "stx" =
       (Outcome.rejected "Message verification failed", exSt1)) :=
  ⟨by decide, by decide, rfl,
   c9_signature_gate exHash exVerifyFalse 1000 exSt1 "a" "a:900:starRegistry" "sg" "stx" 900
     (by decide) (by decide) rfl⟩

/-- C10: the expiry check has no lower bound. For any embedded timestamp t
strictly greater than the current time (negative elapsed time), the expiry
rejection is never taken and the call proceeds directly to the
signature-verification step, however far in the future t lies. -/
theorem c10_future_timestamp_passes (hashFn : String → String)
    (verify : String → String → String → Bool) (now : Nat) (self : Blockchain)
    (address message signature star : String) (t : Int)
    (hparse : ((splitChar (Char.ofNat 58) message).get? 1).bind parseIntOpt = some t)
    (hfut : (now : Int) < t) :
    Blockchain.submitStar hashFn verify now self address message signature star =
      Blockchain.verifyAndAdd hashFn verify now self address message signature star := by
  have hcond : ¬ ((now : Int) - t > timeLimit) := by
    simp only [timeLimit]
    omega
  simp only [Blockchain.submitStar, hparse]
  rw [if_neg hcond]

/-- Witness for C10 at a timestamp far in the future of the current time. -/
theorem c10_future_timestamp_passes_witness :
    ((((splitChar (Char.ofNat 58) "a:99999999:starRegistry").get? 1).bind parseIntOpt
        = some 99999999) ∧
     (10 : Int) < 99999999 ∧
     Blockchain.submitStar exHash exVerifyFalse 10 exSt1 "a" "a:99999999:starRegistry" "s" "x" =
       Blockchain.verifyAndAdd exHash exVerifyFalse 10 exSt1 "a" "a:99999999:starRegistry" "s" "x") :=
  ⟨by decide, by decide,
   c10_future_timestamp_passes exHash exVerifyFalse 10 exSt1 "a" "a:99999999:starRegistry" "s" "x"
     99999999 (by decide) (by decide)⟩

end PrivateBlockchain
